import Mathlib

/-!
Shallow embedding of the arrow-odbc conversion core (schema inference,
column-strategy selection, text strategies, batch conversion, reader
iteration) together with proofs about it.

Sources embedded:
- src/lib.rs        (schema inference in OdbcReader::new, choose_column_strategy,
                     odbc_batch_to_arrow_columns, the Iterator impl)
- src/reader/text.rs (choose_text_strategy and the three text read strategies)
- src/reader/odbc_reader.rs (free function next, OdbcReader::into_concurrent)

Machine integers are modelled as Nat/Int; panicking conversions
(`try_into().unwrap()`, `expect`) are modelled by Option/Except.
-/

set_option maxRecDepth 4096

/-- Time units of the arrow `Timestamp` type. -/
inductive TimeUnit where
  | Second
  | Millisecond
  | Microsecond
  | Nanosecond
deriving DecidableEq, Repr

/-- Arrow logical data types (`arrow::datatypes::DataType`), restricted to the
variants `choose_column_strategy` in src/lib.rs matches on.  Payloads of the
unsupported nested variants are irrelevant to every claim and are omitted. -/
inductive ArrowDataType where
  | Boolean
  | Int8
  | Int16
  | Int32
  | Int64
  | UInt8
  | UInt16
  | UInt32
  | UInt64
  | Float16
  | Float32
  | Float64
  | Decimal (precision : Nat) (scale : Nat)
  | Date32
  | Date64
  | Timestamp (unit : TimeUnit) (tz : Option String)
  | Time32
  | Time64
  | Duration
  | Interval
  | FixedSizeBinary (length : Nat)
  | Binary
  | LargeBinary
  | Utf8
  | LargeUtf8
  | ListTy
  | FixedSizeList
  | LargeList
  | StructTy
  | Union
  | Dictionary
  | Null
deriving DecidableEq, Repr

/-- ODBC SQL data types (`odbc_api::DataType`).  `precision`/`length` are
`usize` in the source (Nat); `scale` is `i16` (Int). -/
inductive OdbcDataType where
  | Unknown
  | Char (length : Nat)
  | WChar (length : Nat)
  | Numeric (precision : Nat) (scale : Int)
  | Decimal (precision : Nat) (scale : Int)
  | Integer
  | SmallInt
  | Float (precision : Nat)
  | Real
  | Double
  | Varchar (length : Nat)
  | WVarchar (length : Nat)
  | LongVarchar (length : Nat)
  | Date
  | Time (precision : Nat)
  | Timestamp (precision : Nat)
  | BigInt
  | TinyInt
  | Bit
  | Varbinary (length : Nat)
  | Binary (length : Nat)
  | LongVarbinary (length : Nat)
  | Other (data_type : Int) (column_size : Nat) (decimal_digits : Int)
deriving DecidableEq, Repr

/-- Embeds `odbc_api::Nullability` of a column description. -/
inductive Nullability where
  | Unknown
  | Nullable
  | NoNulls
deriving DecidableEq, Repr

/-- Embeds `odbc_api::ColumnDescription`: name, native data type, nullability. -/
structure ColumnDescription where
  name : String
  data_type : OdbcDataType
  nullability : Nullability
deriving DecidableEq, Repr

/-- Embeds `ColumnDescription::could_be_nullable`: true unless the source reports
`NoNulls`. -/
def ColumnDescription.could_be_nullable (c : ColumnDescription) : Bool :=
  match c.nullability with
  | Nullability.Nullable => true
  | Nullability.Unknown => true
  | Nullability.NoNulls => false

/-- An arrow schema field: name, data type, nullable flag. -/
structure ArrowField where
  name : String
  data_type : ArrowDataType
  nullable : Bool
deriving DecidableEq, Repr

/-- The native-type-to-arrow-type match of `OdbcReader::new` (src/lib.rs,
lines 158-210), arm for arm in source order.  `none` models the panicking
conversions: a negative decimal scale (`scale.try_into().unwrap()`) and a
binary length not fitting `i32` (`length.try_into().unwrap()`). -/
def infer_arrow_type (d : OdbcDataType) : Option ArrowDataType :=
  match d with
  | OdbcDataType.Numeric p s =>
      if p ≤ 38 then
        if 0 ≤ s then some (ArrowDataType.Decimal p s.toNat) else none
      else some ArrowDataType.Utf8
  | OdbcDataType.Decimal p s =>
      if p ≤ 38 then
        if 0 ≤ s then some (ArrowDataType.Decimal p s.toNat) else none
      else some ArrowDataType.Utf8
  | OdbcDataType.Integer => some ArrowDataType.Int32
  | OdbcDataType.SmallInt => some ArrowDataType.Int16
  | OdbcDataType.Real => some ArrowDataType.Float32
  | OdbcDataType.Float p =>
      if p ≤ 24 then some ArrowDataType.Float32 else some ArrowDataType.Float64
  | OdbcDataType.Double => some ArrowDataType.Float64
  | OdbcDataType.Date => some ArrowDataType.Date32
  | OdbcDataType.Timestamp p =>
      if p = 0 then some (ArrowDataType.Timestamp TimeUnit.Second none)
      else if p ≤ 3 then some (ArrowDataType.Timestamp TimeUnit.Millisecond none)
      else if p ≤ 6 then some (ArrowDataType.Timestamp TimeUnit.Microsecond none)
      else some (ArrowDataType.Timestamp TimeUnit.Nanosecond none)
  | OdbcDataType.BigInt => some ArrowDataType.Int64
  | OdbcDataType.TinyInt => some ArrowDataType.Int8
  | OdbcDataType.Bit => some ArrowDataType.Boolean
  | OdbcDataType.Binary len =>
      if len < 2 ^ 31 then some (ArrowDataType.FixedSizeBinary len) else none
  | OdbcDataType.LongVarbinary _ => some ArrowDataType.Binary
  | OdbcDataType.Varbinary _ => some ArrowDataType.Binary
  | OdbcDataType.Unknown => some ArrowDataType.Utf8
  | OdbcDataType.Time _ => some ArrowDataType.Utf8
  | OdbcDataType.Other _ _ _ => some ArrowDataType.Utf8
  | OdbcDataType.WChar _ => some ArrowDataType.Utf8
  | OdbcDataType.Char _ => some ArrowDataType.Utf8
  | OdbcDataType.WVarchar _ => some ArrowDataType.Utf8
  | OdbcDataType.LongVarchar _ => some ArrowDataType.Utf8
  | OdbcDataType.Varchar _ => some ArrowDataType.Utf8

/-- One iteration of the field-construction loop of `OdbcReader::new`
(src/lib.rs, lines 148-215): builds the arrow field for one column
description, copying nullability via `could_be_nullable`. -/
def infer_field (c : ColumnDescription) : Option ArrowField :=
  (infer_arrow_type c.data_type).map fun ty =>
    { name := c.name, data_type := ty, nullable := c.could_be_nullable }

/-- Schema inference over all column descriptions (the loop of
`OdbcReader::new`, src/lib.rs lines 146-217). -/
def arrow_schema_from (cols : List ColumnDescription) : Option (List ArrowField) :=
  cols.mapM infer_field

/-- Side condition under which the source's conversions do not panic: a
decimal scale is nonnegative whenever the decimal branch is taken, and a
fixed-size binary length fits in `i32`. -/
def wf_odbc_type (d : OdbcDataType) : Prop :=
  match d with
  | OdbcDataType.Numeric p s => p ≤ 38 → 0 ≤ s
  | OdbcDataType.Decimal p s => p ≤ 38 → 0 ≤ s
  | OdbcDataType.Binary len => len < 2 ^ 31
  | _ => True

instance (d : OdbcDataType) : Decidable (wf_odbc_type d) := by
  unfold wf_odbc_type
  cases d <;> infer_instance

/-- The section 4.1 table of the specification, written from the spec's own
words: Numeric/Decimal with precision 0..=38 to Decimal(precision, scale);
Integer to Int32; SmallInt to Int16; BigInt to Int64; TinyInt to Int8; Real or
Float with precision <= 24 to Float32; Float with precision > 24 or Double to
Float64; Date to Date32; Timestamp with fractional precision 0 to seconds,
1-3 to milliseconds, 4-6 to microseconds, > 6 to nanoseconds; Bit to Boolean;
fixed Binary(n) to FixedSizeBinary(n); Varbinary/LongVarbinary to Binary;
every other native type to Utf8. -/
def spec_logical_type (d : OdbcDataType) : ArrowDataType :=
  match d with
  | OdbcDataType.Numeric p s =>
      if p ≤ 38 then ArrowDataType.Decimal p s.toNat else ArrowDataType.Utf8
  | OdbcDataType.Decimal p s =>
      if p ≤ 38 then ArrowDataType.Decimal p s.toNat else ArrowDataType.Utf8
  | OdbcDataType.Integer => ArrowDataType.Int32
  | OdbcDataType.SmallInt => ArrowDataType.Int16
  | OdbcDataType.BigInt => ArrowDataType.Int64
  | OdbcDataType.TinyInt => ArrowDataType.Int8
  | OdbcDataType.Real => ArrowDataType.Float32
  | OdbcDataType.Float p =>
      if p ≤ 24 then ArrowDataType.Float32 else ArrowDataType.Float64
  | OdbcDataType.Double => ArrowDataType.Float64
  | OdbcDataType.Date => ArrowDataType.Date32
  | OdbcDataType.Timestamp p =>
      if p = 0 then ArrowDataType.Timestamp TimeUnit.Second none
      else if 1 ≤ p ∧ p ≤ 3 then ArrowDataType.Timestamp TimeUnit.Millisecond none
      else if 4 ≤ p ∧ p ≤ 6 then ArrowDataType.Timestamp TimeUnit.Microsecond none
      else ArrowDataType.Timestamp TimeUnit.Nanosecond none
  | OdbcDataType.Bit => ArrowDataType.Boolean
  | OdbcDataType.Binary len => ArrowDataType.FixedSizeBinary len
  | OdbcDataType.Varbinary _ => ArrowDataType.Binary
  | OdbcDataType.LongVarbinary _ => ArrowDataType.Binary
  | _ => ArrowDataType.Utf8

/-- The crate's error type (src/lib.rs, enum Error).  `odbc_api::Error`
payloads are abstracted to Nat. -/
inductive RsError where
  | UnsupportedArrowType (t : ArrowDataType)
  | FailedToDescribeColumn (source : Nat)
  | UnknownStringLength (sql_type : OdbcDataType) (source : Nat)
  | InvalidDisplaySize (size : Int)
  | UnableToRetrieveNumCols (source : Nat)
deriving DecidableEq, Repr

/-- The arrow primitive type parameters used with `no_conversion` in
src/lib.rs. -/
inductive ArrowPrimitiveType where
  | Int8Type
  | Int16Type
  | Int32Type
  | Int64Type
  | UInt8Type
  | Float32Type
  | Float64Type
deriving DecidableEq, Repr

/-- The conversion markers used with `with_conversion` in src/lib.rs. -/
inductive Conversion where
  | DateConversion
  | TimestampSecConversion
  | TimestampMsConversion
  | TimestampUsConversion
  | TimestampNsConversion
deriving DecidableEq, Repr

/-- The closed family of column strategies that `choose_column_strategy`
(src/lib.rs) selects from, as a tagged sum carrying each variant's sizing
configuration (the constructor arguments of the source's strategy types). -/
inductive ColumnStrategy where
  | NullableBoolean
  | NonNullableBoolean
  | NoConversion (ty : ArrowPrimitiveType) (nullable : Bool)
  | WithConversion (nullable : Bool) (conv : Conversion)
  | DecimalStrat (nullable : Bool) (precision : Nat) (scale : Nat)
  | BinaryStrat (nullable : Bool) (length : Nat)
  | FixedSizedBinary (nullable : Bool) (length : Nat)
  | WideTextStrat (nullable : Bool) (max_str_len : Nat)
deriving DecidableEq, Repr

/-- Embeds `choose_column_strategy` (src/lib.rs, lines 315-404).  The lazy metadata
closures are modelled by the values they would produce when invoked
(`lazy_sql_type`, `lazy_display_size`); the external `odbc_api::DataType`
methods `utf16_len` and `column_size` are passed in as functions. -/
def choose_column_strategy (utf16_len : OdbcDataType → Option Nat)
    (column_size : OdbcDataType → Nat)
    (field : ArrowField)
    (lazy_sql_type : Except RsError OdbcDataType)
    (lazy_display_size : Except Nat Int) : Except RsError ColumnStrategy :=
  match field.data_type with
  | ArrowDataType.Boolean =>
      if field.nullable then Except.ok ColumnStrategy.NullableBoolean
      else Except.ok ColumnStrategy.NonNullableBoolean
  | ArrowDataType.Int8 =>
      Except.ok (ColumnStrategy.NoConversion ArrowPrimitiveType.Int8Type field.nullable)
  | ArrowDataType.Int16 =>
      Except.ok (ColumnStrategy.NoConversion ArrowPrimitiveType.Int16Type field.nullable)
  | ArrowDataType.Int32 =>
      Except.ok (ColumnStrategy.NoConversion ArrowPrimitiveType.Int32Type field.nullable)
  | ArrowDataType.Int64 =>
      Except.ok (ColumnStrategy.NoConversion ArrowPrimitiveType.Int64Type field.nullable)
  | ArrowDataType.UInt8 =>
      Except.ok (ColumnStrategy.NoConversion ArrowPrimitiveType.UInt8Type field.nullable)
  | ArrowDataType.Float32 =>
      Except.ok (ColumnStrategy.NoConversion ArrowPrimitiveType.Float32Type field.nullable)
  | ArrowDataType.Float64 =>
      Except.ok (ColumnStrategy.NoConversion ArrowPrimitiveType.Float64Type field.nullable)
  | ArrowDataType.Date32 =>
      Except.ok (ColumnStrategy.WithConversion field.nullable Conversion.DateConversion)
  | ArrowDataType.Utf8 => do
      let sql_type ← lazy_sql_type
      let utf16_length ←
        match utf16_len sql_type with
        | some len => Except.ok len
        | none => do
            let signed ← lazy_display_size.mapError
              (fun source => RsError.UnknownStringLength sql_type source)
            if signed < 1 then Except.error (RsError.InvalidDisplaySize signed)
            else Except.ok signed.toNat
      Except.ok (ColumnStrategy.WideTextStrat field.nullable utf16_length)
  | ArrowDataType.Decimal precision scale =>
      Except.ok (ColumnStrategy.DecimalStrat field.nullable precision scale)
  | ArrowDataType.Binary => do
      let sql_type ← lazy_sql_type
      let length := column_size sql_type
      Except.ok (ColumnStrategy.BinaryStrat field.nullable length)
  | ArrowDataType.Timestamp TimeUnit.Second _ =>
      Except.ok (ColumnStrategy.WithConversion field.nullable Conversion.TimestampSecConversion)
  | ArrowDataType.Timestamp TimeUnit.Millisecond _ =>
      Except.ok (ColumnStrategy.WithConversion field.nullable Conversion.TimestampMsConversion)
  | ArrowDataType.Timestamp TimeUnit.Microsecond _ =>
      Except.ok (ColumnStrategy.WithConversion field.nullable Conversion.TimestampUsConversion)
  | ArrowDataType.Timestamp TimeUnit.Nanosecond _ =>
      Except.ok (ColumnStrategy.WithConversion field.nullable Conversion.TimestampNsConversion)
  | ArrowDataType.FixedSizeBinary length =>
      Except.ok (ColumnStrategy.FixedSizedBinary field.nullable length)
  | arrow_type => Except.error (RsError.UnsupportedArrowType arrow_type)

/-- Embeds `ColumnFailure` (src/reader, used by src/reader/text.rs); `odbc_api::Error`
payloads abstracted to Nat. -/
inductive ColumnFailure where
  | ZeroSizedColumn (sql_type : OdbcDataType)
  | UnknownStringLength (sql_type : OdbcDataType) (source : Nat)
deriving DecidableEq, Repr

/-- The three text read strategies of src/reader/text.rs, each carrying its
`max_str_len` configuration (in u16 units for wide, in octets for the narrow
variants). -/
inductive ReadStrategy where
  | WideText (max_str_len : Nat)
  | NarrowText (max_str_len : Nat)
  | NarrowUseTerminatingZero (max_str_len : Nat)
deriving DecidableEq, Repr

/-- The `max_str_len` configuration carried by a text read strategy. -/
def ReadStrategy.max_str_len : ReadStrategy → Nat
  | ReadStrategy.WideText n => n
  | ReadStrategy.NarrowText n => n
  | ReadStrategy.NarrowUseTerminatingZero n => n

/-- Embeds `wide_text_strategy` (src/reader/text.rs, lines 54-56). -/
def wide_text_strategy (u16_len : Nat) : ReadStrategy :=
  ReadStrategy.WideText u16_len

/-- Embeds `narrow_text_strategy` (src/reader/text.rs, lines 58-72). -/
def narrow_text_strategy (octet_len : Nat)
    (assume_indicators_are_memory_garbage : Bool) : ReadStrategy :=
  if assume_indicators_are_memory_garbage then
    ReadStrategy.NarrowUseTerminatingZero octet_len
  else
    ReadStrategy.NarrowText octet_len

/-- The `apply_buffer_limit` closure of `choose_text_strategy`
(src/reader/text.rs, lines 22-27), with its captures (`sql_type`,
`max_text_size`) made explicit. -/
def apply_buffer_limit (sql_type : OdbcDataType) (max_text_size : Option Nat)
    (len : Option Nat) : Except ColumnFailure Nat :=
  match len, max_text_size with
  | none, none => Except.error (ColumnFailure.ZeroSizedColumn sql_type)
  | none, some limit => Except.ok limit
  | some l, none => Except.ok l
  | some l, some limit => Except.ok (min l limit)

/-- The `.map(Ok).or_else(|| lazy_display_size().transpose()).transpose()`
chain of `choose_text_strategy`: use the method-provided length if present,
otherwise the lazily queried display size. -/
def resolve_text_len (method_len : Option Nat)
    (lazy_display_size : Except Nat (Option Nat)) : Except Nat (Option Nat) :=
  match method_len with
  | some len => Except.ok (some len)
  | none => lazy_display_size

/-- Embeds `choose_text_strategy` (src/reader/text.rs, lines 16-52).  The external
`odbc_api::DataType` methods `utf16_len`/`utf8_len` are passed as functions
(both return `Option<NonZeroUsize>` in the source, modelled as Option Nat);
`cfg!(target_os = "windows")` is the parameter `target_os_windows`; the lazy
display-size closure is modelled by the value it would produce. -/
def choose_text_strategy (utf16_len utf8_len : OdbcDataType → Option Nat)
    (target_os_windows : Bool)
    (sql_type : OdbcDataType)
    (lazy_display_size : Except Nat (Option Nat))
    (max_text_size : Option Nat)
    (assume_indicators_are_memory_garbage : Bool) :
    Except ColumnFailure ReadStrategy :=
  if target_os_windows then
    match (resolve_text_len (utf16_len sql_type) lazy_display_size).mapError
        (fun source => ColumnFailure.UnknownStringLength sql_type source) with
    | Except.error e => Except.error e
    | Except.ok hex_len =>
      match apply_buffer_limit sql_type max_text_size hex_len with
      | Except.error e => Except.error e
      | Except.ok hex_len => Except.ok (wide_text_strategy hex_len)
  else
    match (resolve_text_len (utf8_len sql_type) lazy_display_size).mapError
        (fun source => ColumnFailure.UnknownStringLength sql_type source) with
    | Except.error e => Except.error e
    | Except.ok octet_len =>
      match apply_buffer_limit sql_type max_text_size octet_len with
      | Except.error e => Except.error e
      | Except.ok octet_len =>
          Except.ok (narrow_text_strategy octet_len assume_indicators_are_memory_garbage)

/-- A UTF-8 continuation byte (0x80..=0xBF). -/
def utf8_cont (b : Nat) : Bool :=
  0x80 ≤ b && b ≤ 0xBF

/-- Validity of a byte sequence as UTF-8 (the check behind `str::from_utf8` /
`CStr::to_str`): well-formed one- to four-byte sequences, rejecting overlong
encodings, surrogates and code points above U+10FFFF. -/
def utf8_valid : List Nat → Bool
  | [] => true
  | b :: rest =>
    if b ≤ 0x7F then utf8_valid rest
    else if 0xC2 ≤ b && b ≤ 0xDF then
      match rest with
      | b2 :: r => utf8_cont b2 && utf8_valid r
      | _ => false
    else if b = 0xE0 then
      match rest with
      | b2 :: b3 :: r => (0xA0 ≤ b2 && b2 ≤ 0xBF) && utf8_cont b3 && utf8_valid r
      | _ => false
    else if (0xE1 ≤ b && b ≤ 0xEC) || b = 0xEE || b = 0xEF then
      match rest with
      | b2 :: b3 :: r => utf8_cont b2 && utf8_cont b3 && utf8_valid r
      | _ => false
    else if b = 0xED then
      match rest with
      | b2 :: b3 :: r => (0x80 ≤ b2 && b2 ≤ 0x9F) && utf8_cont b3 && utf8_valid r
      | _ => false
    else if b = 0xF0 then
      match rest with
      | b2 :: b3 :: b4 :: r =>
          (0x90 ≤ b2 && b2 ≤ 0xBF) && utf8_cont b3 && utf8_cont b4 && utf8_valid r
      | _ => false
    else if 0xF1 ≤ b && b ≤ 0xF3 then
      match rest with
      | b2 :: b3 :: b4 :: r =>
          utf8_cont b2 && utf8_cont b3 && utf8_cont b4 && utf8_valid r
      | _ => false
    else if b = 0xF4 then
      match rest with
      | b2 :: b3 :: b4 :: r =>
          (0x80 ≤ b2 && b2 ≤ 0x8F) && utf8_cont b3 && utf8_cont b4 && utf8_valid r
      | _ => false
    else false

/-- Rust's `slice::chunks_exact(k)`: the `len / k` consecutive `k`-element
chunks of the slice, any remainder dropped. -/
def chunks_exact {α : Type} (k : Nat) (l : List α) : List (List α) :=
  (List.range (l.length / k)).map fun i => (l.drop (i * k)).take k

/-- Embeds `CStr::from_bytes_until_nul` restricted to its byte content: the bytes
strictly before the first zero byte, or `none` (the source `expect`s, i.e.
panics) when no zero byte occurs. -/
def bytes_until_nul : List Nat → Option (List Nat)
  | [] => none
  | b :: rest => if b = 0 then some [] else (bytes_until_nul rest).map (b :: ·)

/-- The view of one bound text column (`odbc_api`'s `TextColumnView`): the
per-row indicators and the contiguous raw value buffer holding
`max_str_len + 1` bytes per valid row. -/
structure TextColumnView where
  num_rows : Nat
  max_str_len : Nat
  indicators : List Int
  raw_value_buffer : List Nat
deriving DecidableEq, Repr

/-- Embeds `TextColumnView`'s per-row value as produced by `view.iter()`: `none` for
a NULL indicator, otherwise the row's bytes, of the indicated length capped
at `max_str_len`. -/
def TextColumnView.value_at (v : TextColumnView) (i : Nat) : Option (List Nat) :=
  match v.indicators.get? i with
  | none => none
  | some ind =>
    if ind < 0 then none
    else some (((v.raw_value_buffer.drop (i * (v.max_str_len + 1))).take
      (min ind.toNat v.max_str_len)))

/-- Embeds `view.iter()`: the indicator-driven row values of a text column view. -/
def TextColumnView.iter (v : TextColumnView) : List (Option (List Nat)) :=
  (List.range v.num_rows).map v.value_at

/-- Embeds `NarrowUseTerminatingZero::fill_arrow_array` (src/reader/text.rs, lines
170-188): chunk the raw value buffer in `max_str_len + 1` strides, cut each
chunk at its first zero byte, require valid UTF-8, and append every row as a
present value.  `none` models the two `expect` panics (missing terminating
zero, invalid UTF-8). -/
def NarrowUseTerminatingZero.fill_arrow_array (max_str_len : Nat)
    (view : TextColumnView) : Option (List (Option (List Nat))) :=
  (chunks_exact (max_str_len + 1) view.raw_value_buffer).mapM fun bytes => do
    let c_str ← bytes_until_nul bytes
    if utf8_valid c_str then some (some c_str) else none

/-- Embeds `char::decode_utf16` with every item unwrapped, as in
`WideText::fill_arrow_array`: code units to code points, `none` (a panic in
the source) at the first unpaired surrogate. -/
def decode_utf16 : List Nat → Option (List Nat)
  | [] => some []
  | u :: rest =>
    if u < 0xD800 ∨ 0xE000 ≤ u then (decode_utf16 rest).map (u :: ·)
    else if u < 0xDC00 then
      match rest with
      | u2 :: rest2 =>
        if 0xDC00 ≤ u2 ∧ u2 < 0xE000 then
          (decode_utf16 rest2).map
            ((0x10000 + (u - 0xD800) * 0x400 + (u2 - 0xDC00)) :: ·)
        else none
      | [] => none
    else none

/-- UTF-16 encoding of one Unicode scalar value. -/
def encode_utf16_char (c : Nat) : List Nat :=
  if c < 0x10000 then [c]
  else [0xD800 + (c - 0x10000) / 0x400, 0xDC00 + (c - 0x10000) % 0x400]

/-- UTF-16 encoding of a sequence of Unicode scalar values. -/
def encode_utf16 (s : List Nat) : List Nat :=
  (s.map encode_utf16_char).join

/-- A Unicode scalar value: in range and not a surrogate. -/
def unicode_scalar (c : Nat) : Prop :=
  c < 0x110000 ∧ ¬(0xD800 ≤ c ∧ c < 0xE000)

/-- Embeds the row loop of `WideText::fill_arrow_array` (src/reader/text.rs, lines
95-118) with the reused `buf_utf8` scratch buffer threaded explicitly: each
iteration clears the incoming buffer, decodes the present row into it, and
appends its contents (or appends null for an absent row). -/
def WideText.fill_go : List (Option (List Nat)) → List Nat →
    Option (List (Option (List Nat)))
  | [], _ => some []
  | v :: rest, _ =>
    let buf0 : List Nat := []
    match v with
    | none => (WideText.fill_go rest buf0).map (fun tl => none :: tl)
    | some utf16 =>
      match decode_utf16 utf16 with
      | none => none
      | some cs =>
          (WideText.fill_go rest (buf0 ++ cs)).map
            (fun tl => some (buf0 ++ cs) :: tl)

/-- Embeds `WideText::fill_arrow_array` (src/reader/text.rs, lines 95-118): decode
each present row from UTF-16, null for absent rows, starting from an empty
scratch buffer. -/
def WideText.fill_arrow_array (rows : List (Option (List Nat))) :
    Option (List (Option (List Nat))) :=
  WideText.fill_go rows []

/-- One outcome of `batch_stream.next()` / `cursor.fetch()`:
`Ok(Some(batch))`, `Ok(None)`, or `Err(odbc_error)` (error abstracted to
Nat). -/
inductive FetchResult (β : Type) where
  | ok_batch (b : β)
  | ok_end
  | err (e : Nat)
deriving DecidableEq, Repr

/-- The two ways `next` wraps a failure into `ArrowError::ExternalError`:
a conversion (mapping) error or an ODBC fetch error. -/
inductive ArrowErr where
  | externalMapping (e : Nat)
  | externalOdbc (e : Nat)
deriving DecidableEq, Repr

/-- The free function `next` (src/reader/odbc_reader.rs, lines 194-210; the
same match as `<OdbcReader as Iterator>::next` in src/lib.rs, lines 274-289).
The batch stream is modelled as the list of successive fetch outcomes; one
call consumes the head outcome and returns the produced item (none = the
iterator returned `None`) together with the remaining stream.  No state
beyond the stream position exists: nothing records a previous error. -/
def reader_next {β γ : Type} (convert : β → Except Nat γ)
    (stream : List (FetchResult β)) :
    Option (Except ArrowErr γ) × List (FetchResult β) :=
  match stream with
  | [] => (none, [])
  | FetchResult.ok_batch b :: rest =>
      (some ((convert b).mapError ArrowErr.externalMapping), rest)
  | FetchResult.ok_end :: rest => (none, rest)
  | FetchResult.err e :: rest =>
      (some (Except.error (ArrowErr.externalOdbc e)), rest)

/-- Runs `n` successive calls of `next`, collecting each call's result. -/
def reader_iterate {β γ : Type} (convert : β → Except Nat γ) :
    Nat → List (FetchResult β) → List (Option (Except ArrowErr γ))
  | 0, _ => []
  | Nat.succ n, stream =>
      (reader_next convert stream).1 ::
        reader_iterate convert n (reader_next convert stream).2

/-- One value of a converted arrow column. -/
inductive ArrowCell where
  | b (x : Bool)
  | i (x : Int)
  | s (x : List Nat)
  | bin (x : List Nat)
  | dec (x : Int)
deriving DecidableEq, Repr

/-- The per-column view handed to a strategy's fill (`odbc_api::AnySlice` /
the old `AnyColumnView`), one variant per buffer kind bound by the old
lib.rs strategies. -/
inductive AnySlice where
  | bools (vals : List Bool)
  | nullable_bools (vals : List (Option Bool))
  | ints (vals : List Int)
  | nullable_ints (vals : List (Option Int))
  | texts (view : TextColumnView)
  | wtexts (vals : List (Option (List Nat)))
  | binaries (vals : List (Option (List Nat)))
  | fixed_binaries (vals : List (Option (List Nat)))
deriving DecidableEq, Repr

/-- Number of valid rows exposed by a column slice. -/
def AnySlice.num_rows : AnySlice → Nat
  | AnySlice.bools vals => vals.length
  | AnySlice.nullable_bools vals => vals.length
  | AnySlice.ints vals => vals.length
  | AnySlice.nullable_ints vals => vals.length
  | AnySlice.texts view => view.num_rows
  | AnySlice.wtexts vals => vals.length
  | AnySlice.binaries vals => vals.length
  | AnySlice.fixed_binaries vals => vals.length

/-- Modelled from the spec: the fill operations of the old lib.rs column
strategies live in src/column_strategy.rs, which is not under src/.  Per
spec section 4.2 each strategy appends one output value (or null) per valid
row of its slice: booleans directly, plain numerics as a no-conversion copy,
temporal values through a pure value-mapping function (`value_map`), decimals
by parsing the source's textual representation (`decimal_parse`, a per-row
failure on out-of-range input), binary variants as byte copies, and wide text
by the UTF-16 decode of src/reader/text.rs.  `none` models a panic or a
mismatched buffer kind (`as_slice().unwrap()`). -/
def ColumnStrategy.fill_arrow_array
    (value_map : Conversion → Int → Int)
    (decimal_parse : List Nat → Option Int) :
    ColumnStrategy → AnySlice → Option (List (Option ArrowCell))
  | ColumnStrategy.NullableBoolean, AnySlice.nullable_bools vals =>
      some (vals.map (fun v => v.map ArrowCell.b))
  | ColumnStrategy.NonNullableBoolean, AnySlice.bools vals =>
      some (vals.map (fun v => some (ArrowCell.b v)))
  | ColumnStrategy.NoConversion _ nullable, AnySlice.ints vals =>
      if nullable then none
      else some (vals.map (fun v => some (ArrowCell.i v)))
  | ColumnStrategy.NoConversion _ nullable, AnySlice.nullable_ints vals =>
      if nullable then some (vals.map (fun v => v.map ArrowCell.i))
      else none
  | ColumnStrategy.WithConversion nullable conv, AnySlice.ints vals =>
      if nullable then none
      else some (vals.map (fun v => some (ArrowCell.i (value_map conv v))))
  | ColumnStrategy.WithConversion nullable conv, AnySlice.nullable_ints vals =>
      if nullable then
        some (vals.map (fun v => v.map (fun x => ArrowCell.i (value_map conv x))))
      else none
  | ColumnStrategy.DecimalStrat _ _ _, AnySlice.texts view =>
      view.iter.mapM (fun v =>
        match v with
        | none => some none
        | some bytes => (decimal_parse bytes).map (fun x => some (ArrowCell.dec x)))
  | ColumnStrategy.BinaryStrat _ _, AnySlice.binaries vals =>
      some (vals.map (fun v => v.map ArrowCell.bin))
  | ColumnStrategy.FixedSizedBinary _ _, AnySlice.fixed_binaries vals =>
      some (vals.map (fun v => v.map ArrowCell.bin))
  | ColumnStrategy.WideTextStrat _ _, AnySlice.wtexts vals =>
      (WideText.fill_go vals []).map (fun out => out.map (fun v => v.map ArrowCell.s))
  | _, _ => none

/-- The batch held by the bound row-set buffer (`ColumnarRowSet`): valid-row
count plus the per-column slices. -/
structure ColumnarRowSet where
  num_rows : Nat
  columns : List AnySlice
deriving Repr

/-- Embeds `odbc_batch_to_arrow_columns` (src/lib.rs, lines 301-313): one fill per
strategy, against the column of the same index. -/
def odbc_batch_to_arrow_columns
    (value_map : Conversion → Int → Int)
    (decimal_parse : List Nat → Option Int)
    (column_strategies : List ColumnStrategy) (batch : ColumnarRowSet) :
    Option (List (List (Option ArrowCell))) :=
  column_strategies.enum.mapM fun p =>
    match batch.columns.get? p.1 with
    | none => none
    | some column_view =>
        ColumnStrategy.fill_arrow_array value_map decimal_parse p.2 column_view

/-- The strategy-construction loop of `OdbcReader::with_arrow_schema`
(src/lib.rs, lines 238-252): one `choose_column_strategy` call per schema
field, with that column's lazy metadata closures. -/
def with_arrow_schema_strategies (utf16_len : OdbcDataType → Option Nat)
    (column_size : OdbcDataType → Nat) (fields : List ArrowField)
    (lazy_sql_type : Nat → Except RsError OdbcDataType)
    (lazy_display_size : Nat → Except Nat Int) :
    Except RsError (List ColumnStrategy) :=
  fields.enum.mapM fun p =>
    choose_column_strategy utf16_len column_size p.2
      (lazy_sql_type p.1) (lazy_display_size p.1)

/-- Embeds `BufferAllocationOptions` (field names as in the source, including the
`fallibale_allocations` spelling used by src/reader/odbc_reader.rs). -/
structure BufferAllocationOptions where
  max_text_size : Option Nat
  max_binary_size : Option Nat
  fallibale_allocations : Bool
  assume_indicators_are_memory_garbage : Bool
deriving DecidableEq, Repr

/-- Embeds `BufferAllocationOptions::default()`. -/
def BufferAllocationOptions.default : BufferAllocationOptions :=
  { max_text_size := none, max_binary_size := none,
    fallibale_allocations := false,
    assume_indicators_are_memory_garbage := false }

/-- An ODBC cursor, reduced to the column metadata the embedded operations
consult. -/
structure CursorModel where
  cols : List ColumnDescription
deriving DecidableEq, Repr

/-- The bound row-set buffer side of a `BlockCursor`, reduced to the batch
row capacity it was allocated with. -/
structure BoundBuffer where
  capacity : Nat
deriving DecidableEq, Repr

/-- Embeds `BlockCursor<C, ColumnarAnyBuffer>`: the cursor with its bound buffer. -/
structure BlockCursorModel where
  cursor : CursorModel
  buffer : BoundBuffer
deriving DecidableEq, Repr

/-- The state of `OdbcReader` (src/reader/odbc_reader.rs, lines 65-71): the
converter (whose observable configuration is the schema and the buffer
allocation options it was built with) and the bound batch stream. -/
structure OdbcReaderModel where
  schema : List ArrowField
  options : BufferAllocationOptions
  batch_stream : BlockCursorModel
deriving DecidableEq, Repr

/-- Embeds `OdbcReader::into_cursor` (src/reader/odbc_reader.rs, lines 168-171):
unbind the batch stream, discard the buffer, yield the cursor. -/
def OdbcReader.into_cursor (r : OdbcReaderModel) : CursorModel :=
  r.batch_stream.cursor

/-- Modelled from the spec: `ConcurrentOdbcReader` and its constructor live
in a reader module that is not under src/.  Per spec sections 4.6 and 6 the
constructor takes a cursor and a maximum batch size, infers the schema from
the cursor's metadata (section 4.1), and uses default buffer allocation
options; `none` models schema-inference failure. -/
structure ConcurrentOdbcReaderModel where
  cursor : CursorModel
  max_batch_size : Nat
  schema : List ArrowField
  options : BufferAllocationOptions
deriving DecidableEq, Repr

/-- Modelled from the spec: `ConcurrentOdbcReader::new(cursor,
max_batch_size)` (see `ConcurrentOdbcReaderModel`). -/
def ConcurrentOdbcReader.new (cursor : CursorModel) (max_batch_size : Nat) :
    Option ConcurrentOdbcReaderModel :=
  (arrow_schema_from cursor.cols).map fun schema =>
    { cursor := cursor, max_batch_size := max_batch_size,
      schema := schema, options := BufferAllocationOptions.default }

/-- Embeds `OdbcReader::into_concurrent` (src/reader/odbc_reader.rs, lines
156-162): unbind the cursor, then construct the concurrent reader with the
hardcoded `max_batch_size = 100`. -/
def OdbcReader.into_concurrent (r : OdbcReaderModel) :
    Option ConcurrentOdbcReaderModel :=
  let cursor := OdbcReader.into_cursor r
  let max_batch_size := 100
  ConcurrentOdbcReader.new cursor max_batch_size

/-- Concrete data for the C9 witness. -/
def c9_cursor : CursorModel :=
  CursorModel.mk [ColumnDescription.mk "a" OdbcDataType.Integer Nullability.NoNulls]

def c9_opts : BufferAllocationOptions :=
  BufferAllocationOptions.mk (some 7) none true true

def c9_reader1 : OdbcReaderModel :=
  OdbcReaderModel.mk [ArrowField.mk "x" ArrowDataType.Utf8 true]
    BufferAllocationOptions.default (BlockCursorModel.mk c9_cursor (BoundBuffer.mk 1))

def c9_reader2 : OdbcReaderModel :=
  OdbcReaderModel.mk [] c9_opts (BlockCursorModel.mk c9_cursor (BoundBuffer.mk 5000))

def c9_concurrent : ConcurrentOdbcReaderModel :=
  ConcurrentOdbcReaderModel.mk c9_cursor 100
    [ArrowField.mk "a" ArrowDataType.Int32 false] BufferAllocationOptions.default

/-- C1: For every source column descriptor (whose parameters do not make the
source panic), schema inference maps the native type to exactly the logical
type of the section 4.1 table, and the field's nullable flag equals the
descriptor's nullability (`could_be_nullable`). -/
theorem C1_schema_inference (c : ColumnDescription) (h : wf_odbc_type c.data_type) :
    infer_field c = some
      { name := c.name
        data_type := spec_logical_type c.data_type
        nullable := c.could_be_nullable } := by
  obtain ⟨name, d, nl⟩ := c
  simp only [infer_field, infer_arrow_type, spec_logical_type, wf_odbc_type] at h ⊢
  cases d <;> simp_all <;> split_ifs <;> simp_all <;> omega

/-- Witness for C1 at a concrete descriptor. -/
theorem C1_schema_inference_witness :
    infer_field { name := "a", data_type := OdbcDataType.Numeric 10 2,
                  nullability := Nullability.Nullable } = some
      { name := "a"
        data_type := spec_logical_type (OdbcDataType.Numeric 10 2)
        nullable := true } :=
  C1_schema_inference
    { name := "a", data_type := OdbcDataType.Numeric 10 2,
      nullability := Nullability.Nullable } (by decide)

/-- C8: for every field whose logical type is neither Utf8 nor Binary,
strategy selection is independent of the lazy native-type and display-size
metadata query results: selecting with any two pairs of lazy query outcomes
gives the same strategy, i.e. the deferred lookups are never invoked. -/
theorem C8_lazy_metadata_not_consulted
    (utf16_len : OdbcDataType → Option Nat) (column_size : OdbcDataType → Nat)
    (field : ArrowField)
    (t1 t2 : Except RsError OdbcDataType) (d1 d2 : Except Nat Int)
    (h1 : field.data_type ≠ ArrowDataType.Utf8)
    (h2 : field.data_type ≠ ArrowDataType.Binary) :
    choose_column_strategy utf16_len column_size field t1 d1 =
      choose_column_strategy utf16_len column_size field t2 d2 := by
  unfold choose_column_strategy
  rcases field with ⟨name, dt, nl⟩
  cases dt <;> simp_all
  case Timestamp unit tz => cases unit <;> rfl

/-- Witness for C8 at a concrete Int32 field. -/
theorem C8_lazy_metadata_not_consulted_witness :
    choose_column_strategy (fun _ => none) (fun _ => 0)
      { name := "a", data_type := ArrowDataType.Int32, nullable := true }
      (Except.ok OdbcDataType.Integer) (Except.ok 1) =
    choose_column_strategy (fun _ => none) (fun _ => 0)
      { name := "a", data_type := ArrowDataType.Int32, nullable := true }
      (Except.error (RsError.FailedToDescribeColumn 7)) (Except.error 3) :=
  C8_lazy_metadata_not_consulted (fun _ => none) (fun _ => 0)
    { name := "a", data_type := ArrowDataType.Int32, nullable := true }
    (Except.ok OdbcDataType.Integer)
    (Except.error (RsError.FailedToDescribeColumn 7))
    (Except.ok 1) (Except.error 3) (by decide) (by decide)

/-- C10: a UInt8 field is accepted by strategy selection and handled by the
generic no-conversion numeric strategy, while UInt16, UInt32 and UInt64 are
rejected as unsupported. -/
theorem C10_uint8_accepted_wider_unsigned_rejected
    (utf16_len : OdbcDataType → Option Nat) (column_size : OdbcDataType → Nat)
    (name : String) (nullable : Bool)
    (t : Except RsError OdbcDataType) (d : Except Nat Int) :
    choose_column_strategy utf16_len column_size
        { name := name, data_type := ArrowDataType.UInt8, nullable := nullable } t d =
      Except.ok (ColumnStrategy.NoConversion ArrowPrimitiveType.UInt8Type nullable) ∧
    choose_column_strategy utf16_len column_size
        { name := name, data_type := ArrowDataType.UInt16, nullable := nullable } t d =
      Except.error (RsError.UnsupportedArrowType ArrowDataType.UInt16) ∧
    choose_column_strategy utf16_len column_size
        { name := name, data_type := ArrowDataType.UInt32, nullable := nullable } t d =
      Except.error (RsError.UnsupportedArrowType ArrowDataType.UInt32) ∧
    choose_column_strategy utf16_len column_size
        { name := name, data_type := ArrowDataType.UInt64, nullable := nullable } t d =
      Except.error (RsError.UnsupportedArrowType ArrowDataType.UInt64) := by
  refine ⟨rfl, rfl, rfl, rfl⟩

/-- C5: the text strategy is wide exactly on Windows targets; off Windows it
is the narrow-with-unreliable-indicators variant exactly when
`assume_indicators_are_memory_garbage` is set, and plain narrow otherwise. -/
theorem C5_text_strategy_selection
    (utf16_len utf8_len : OdbcDataType → Option Nat)
    (target_os_windows : Bool) (sql_type : OdbcDataType)
    (lazy_display_size : Except Nat (Option Nat))
    (max_text_size : Option Nat) (garbage : Bool)
    (s : ReadStrategy)
    (h : choose_text_strategy utf16_len utf8_len target_os_windows sql_type
          lazy_display_size max_text_size garbage = Except.ok s) :
    ((∃ n, s = ReadStrategy.WideText n) ↔ target_os_windows = true) ∧
    ((∃ n, s = ReadStrategy.NarrowUseTerminatingZero n) ↔
        (target_os_windows = false ∧ garbage = true)) ∧
    ((∃ n, s = ReadStrategy.NarrowText n) ↔
        (target_os_windows = false ∧ garbage = false)) := by
  unfold choose_text_strategy at h
  cases target_os_windows <;> simp only [Bool.false_eq_true, if_true, if_false] at h
  · rcases hr : (resolve_text_len (utf8_len sql_type) lazy_display_size).mapError
        (fun source => ColumnFailure.UnknownStringLength sql_type source) with e | len <;>
      rw [hr] at h <;> dsimp only at h
    · cases h
    · rcases hl : apply_buffer_limit sql_type max_text_size len with e2 | n2 <;>
        rw [hl] at h <;> dsimp only at h
      · cases h
      · cases h
        unfold narrow_text_strategy
        cases garbage <;> simp
  · rcases hr : (resolve_text_len (utf16_len sql_type) lazy_display_size).mapError
        (fun source => ColumnFailure.UnknownStringLength sql_type source) with e | len <;>
      rw [hr] at h <;> dsimp only at h
    · cases h
    · rcases hl : apply_buffer_limit sql_type max_text_size len with e2 | n2 <;>
        rw [hl] at h <;> dsimp only at h
      · cases h
      · cases h
        unfold wide_text_strategy
        simp

/-- Witness for C5 on a concrete non-Windows, garbage-indicator selection. -/
theorem C5_text_strategy_selection_witness :
    ((∃ n, ReadStrategy.NarrowUseTerminatingZero 5 = ReadStrategy.WideText n) ↔
        false = true) ∧
    ((∃ n, ReadStrategy.NarrowUseTerminatingZero 5 =
        ReadStrategy.NarrowUseTerminatingZero n) ↔ (false = false ∧ true = true)) ∧
    ((∃ n, ReadStrategy.NarrowUseTerminatingZero 5 = ReadStrategy.NarrowText n) ↔
        (false = false ∧ true = false)) :=
  C5_text_strategy_selection (fun _ => some 3) (fun _ => some 5) false
    (OdbcDataType.Varchar 5) (Except.ok none) none true
    (ReadStrategy.NarrowUseTerminatingZero 5) rfl

theorem narrow_text_strategy_max_str_len (n : Nat) (g : Bool) :
    (narrow_text_strategy n g).max_str_len = n := by
  cases g <;> rfl

theorem wide_text_strategy_max_str_len (n : Nat) :
    (wide_text_strategy n).max_str_len = n := rfl

/-- C2: length determination for Utf8 columns.  Over `choose_text_strategy`
(src/reader/text.rs): a method-provided maximum length for the chosen
encoding is used, clamped to `min(length, cap)` when a cap is configured;
otherwise the queried display size is used, likewise clamped; with no
computable length and no cap the result is `ZeroSizedColumn`; a failing
display-size query gives `UnknownStringLength`.  Over the Utf8 branch of
`choose_column_strategy` (src/lib.rs): a queried display size below 1 gives
`InvalidDisplaySize`. -/
theorem C2_text_length_determination
    (utf16_len utf8_len : OdbcDataType → Option Nat)
    (column_size : OdbcDataType → Nat)
    (target_os_windows garbage : Bool) (sql_type : OdbcDataType)
    (lazy_display_size : Except Nat (Option Nat)) (cap : Option Nat) :
    (∀ len, (if target_os_windows then utf16_len else utf8_len) sql_type = some len →
        ∃ s, choose_text_strategy utf16_len utf8_len target_os_windows sql_type
            lazy_display_size cap garbage = Except.ok s ∧
          s.max_str_len = (match cap with | none => len | some c => min len c)) ∧
    (∀ d, (if target_os_windows then utf16_len else utf8_len) sql_type = none →
        lazy_display_size = Except.ok (some d) →
        ∃ s, choose_text_strategy utf16_len utf8_len target_os_windows sql_type
            lazy_display_size cap garbage = Except.ok s ∧
          s.max_str_len = (match cap with | none => d | some c => min d c)) ∧
    ((if target_os_windows then utf16_len else utf8_len) sql_type = none →
        lazy_display_size = Except.ok none → cap = none →
        choose_text_strategy utf16_len utf8_len target_os_windows sql_type
            lazy_display_size cap garbage =
          Except.error (ColumnFailure.ZeroSizedColumn sql_type)) ∧
    (∀ e, (if target_os_windows then utf16_len else utf8_len) sql_type = none →
        lazy_display_size = Except.error e →
        choose_text_strategy utf16_len utf8_len target_os_windows sql_type
            lazy_display_size cap garbage =
          Except.error (ColumnFailure.UnknownStringLength sql_type e)) ∧
    (∀ (name : String) (nullable : Bool) (signed : Int),
        utf16_len sql_type = none → signed < 1 →
        choose_column_strategy utf16_len column_size
          { name := name, data_type := ArrowDataType.Utf8, nullable := nullable }
          (Except.ok sql_type) (Except.ok signed) =
          Except.error (RsError.InvalidDisplaySize signed)) := by
  refine ⟨?_, ?_, ?_, ?_, ?_⟩
  · intro len h
    cases target_os_windows <;> simp only [if_true, if_false, Bool.false_eq_true] at h <;>
      unfold choose_text_strategy <;>
      simp only [resolve_text_len, h, Except.mapError, if_true, if_false] <;>
      cases cap <;>
      simp [apply_buffer_limit, narrow_text_strategy_max_str_len,
        wide_text_strategy_max_str_len]
  · intro d h hd
    cases target_os_windows <;> simp only [if_true, if_false, Bool.false_eq_true] at h <;>
      unfold choose_text_strategy <;>
      simp only [resolve_text_len, h, hd, Except.mapError, if_true, if_false] <;>
      cases cap <;>
      simp [apply_buffer_limit, narrow_text_strategy_max_str_len,
        wide_text_strategy_max_str_len]
  · intro h hd hc
    subst hc
    cases target_os_windows <;> simp only [if_true, if_false, Bool.false_eq_true] at h <;>
      unfold choose_text_strategy <;>
      simp [resolve_text_len, h, hd, Except.mapError, apply_buffer_limit]
  · intro e h hd
    cases target_os_windows <;> simp only [if_true, if_false, Bool.false_eq_true] at h <;>
      unfold choose_text_strategy <;>
      simp [resolve_text_len, h, hd, Except.mapError, apply_buffer_limit]
  · intro name nullable signed h hs
    unfold choose_column_strategy
    simp only [h, Bind.bind, Except.bind, Except.mapError]
    rw [if_pos hs]

/-- Witness for C2: concrete evaluations exercising the cap clamp and the
`InvalidDisplaySize` failure. -/
theorem C2_text_length_determination_witness :
    (∃ s, choose_text_strategy (fun _ => some 9) (fun _ => some 9) true
        (OdbcDataType.Varchar 9) (Except.ok none) (some 4) false = Except.ok s ∧
      s.max_str_len = min 9 4) ∧
    choose_column_strategy (fun _ => none) (fun _ => 0)
      { name := "c", data_type := ArrowDataType.Utf8, nullable := true }
      (Except.ok (OdbcDataType.Other 0 0 0)) (Except.ok (-2)) =
      Except.error (RsError.InvalidDisplaySize (-2)) := by
  constructor
  · exact (C2_text_length_determination (fun _ => some 9) (fun _ => some 9)
      (fun _ => 0) true false (OdbcDataType.Varchar 9) (Except.ok none)
      (some 4)).1 9 rfl
  · exact (C2_text_length_determination (fun _ => none) (fun _ => none)
      (fun _ => 0) true false (OdbcDataType.Other 0 0 0) (Except.ok none)
      none).2.2.2.2 "c" true (-2) rfl (by decide)

/-- Success of an `Option`-monad `mapM` determines each output element from
the corresponding input element. -/
theorem mapM_option_spec {α β : Type} (f : α → Option β) :
    ∀ (l : List α) (out : List β), l.mapM f = some out →
      out.length = l.length ∧
      ∀ i a, l.get? i = some a → ∃ b, out.get? i = some b ∧ f a = some b := by
  intro l
  induction l with
  | nil =>
    intro out h
    rw [List.mapM_nil] at h
    cases h
    exact ⟨rfl, by intro i a ha; simp at ha⟩
  | cons a l ih =>
    intro out h
    rw [List.mapM_cons] at h
    rcases hf : f a with _ | b <;> rw [hf] at h
    · cases h
    · rcases hm : l.mapM f with _ | bs <;> rw [hm] at h <;>
        simp only [Option.bind_some, Option.bind_none, Option.bind_eq_bind] at h
      · cases h
      · cases h
        obtain ⟨hlen, hget⟩ := ih bs hm
        refine ⟨by simp [hlen], ?_⟩
        intro i x hx
        cases i with
        | zero =>
          simp at hx
          subst hx
          exact ⟨b, rfl, hf⟩
        | succ j =>
          simp only [List.get?_cons_succ] at hx ⊢
          exact hget j x hx

/-- Lemma: `bytes_until_nul` yields exactly the prefix before the first zero. -/
theorem bytes_until_nul_eq_takeWhile :
    ∀ (bs c : List Nat), bytes_until_nul bs = some c →
      c = bs.takeWhile (fun b => b != 0) := by
  intro bs
  induction bs with
  | nil => intro c h; cases h
  | cons b rest ih =>
    intro c h
    unfold bytes_until_nul at h
    by_cases hb : b = 0
    · subst hb
      simp at h
      subst h
      simp [List.takeWhile]
    · rw [if_neg hb] at h
      rcases hr : bytes_until_nul rest with _ | c2 <;> rw [hr] at h
      · cases h
      · simp at h
        subst h
        rw [ih c2 hr]
        simp only [List.takeWhile]
        rw [show (b != 0) = true by simp [hb]]

theorem chunks_exact_length {α : Type} (k n : Nat) (l : List α)
    (hk : 0 < k) (hl : l.length = n * k) :
    (chunks_exact k l).length = n := by
  simp [chunks_exact, hl, Nat.mul_div_cancel _ hk]

theorem chunks_exact_get {α : Type} (k n i : Nat) (l : List α)
    (hk : 0 < k) (hl : l.length = n * k) (hi : i < n) :
    (chunks_exact k l).get? i = some ((l.drop (i * k)).take k) := by
  simp only [chunks_exact, hl, Nat.mul_div_cancel _ hk, List.get?_map]
  rw [List.get?_range hi]
  rfl

/-- C3: the narrow-with-unreliable-indicators fill partitions the raw value
buffer into consecutive `max_str_len + 1`-byte chunks (one per row), takes as
each row's string the chunk bytes preceding the first zero byte, appends every
row as a present (non-null) value, and never consults the per-row indicator
buffer (the result is identical under any indicator contents). -/
theorem C3_narrow_terminating_zero_fill
    (max_str_len : Nat) (view : TextColumnView)
    (out : List (Option (List Nat)))
    (hlen : view.raw_value_buffer.length = view.num_rows * (max_str_len + 1))
    (hfill : NarrowUseTerminatingZero.fill_arrow_array max_str_len view = some out) :
    out.length = view.num_rows ∧
    (∀ i, i < view.num_rows →
      out.get? i = some (some
        (((view.raw_value_buffer.drop (i * (max_str_len + 1))).take
          (max_str_len + 1)).takeWhile (fun b => b != 0)))) ∧
    (∀ o ∈ out, o ≠ none) ∧
    (∀ ind2 : List Int,
      NarrowUseTerminatingZero.fill_arrow_array max_str_len
        { view with indicators := ind2 } = some out) := by
  obtain ⟨hl, hg⟩ := mapM_option_spec _ _ out hfill
  have hcontent : ∀ i, i < view.num_rows →
      out.get? i = some (some
        (((view.raw_value_buffer.drop (i * (max_str_len + 1))).take
          (max_str_len + 1)).takeWhile (fun b => b != 0))) := by
    intro i hi
    have hc := chunks_exact_get (max_str_len + 1) view.num_rows i
      view.raw_value_buffer (Nat.succ_pos _) hlen hi
    obtain ⟨b, hb, hfb⟩ := hg i _ hc
    rcases hn : bytes_until_nul ((view.raw_value_buffer.drop
        (i * (max_str_len + 1))).take (max_str_len + 1)) with _ | c <;>
      simp only [hn, Option.bind_eq_bind, Option.bind_none, Option.bind_some] at hfb
    · cases hfb
    · simp only [Option.some_bind] at hfb
      by_cases hv : utf8_valid c = true
      · rw [if_pos hv] at hfb
        cases hfb
        rw [hb, bytes_until_nul_eq_takeWhile _ c hn]
      · rw [if_neg hv] at hfb
        cases hfb
  refine ⟨?_, hcontent, ?_, ?_⟩
  · rw [hl, chunks_exact_length (max_str_len + 1) view.num_rows _
      (Nat.succ_pos _) hlen]
  · intro o ho
    obtain ⟨⟨i, hilt⟩, rfl⟩ := List.mem_iff_get.mp ho
    have hi : i < view.num_rows := by
      rw [hl, chunks_exact_length (max_str_len + 1) view.num_rows _
        (Nat.succ_pos _) hlen] at hilt
      exact hilt
    have := hcontent i hi
    rw [List.get?_eq_get hilt] at this
    rw [Option.some.inj this]
    simp
  · intro ind2
    exact hfill

/-- Witness for C3: a 4-byte stride holding the bytes of the string of the
two characters a and b followed by a zero terminator, under an indicator
falsely marking the row NULL, yields that two-byte string as present. -/
theorem C3_narrow_terminating_zero_fill_witness :
    ([some [97, 98]] : List (Option (List Nat))).length =
      (TextColumnView.mk 1 3 [-1] [97, 98, 0, 0]).num_rows ∧
    (∀ i, i < (TextColumnView.mk 1 3 [-1] [97, 98, 0, 0]).num_rows →
      ([some [97, 98]] : List (Option (List Nat))).get? i = some (some
        ((((TextColumnView.mk 1 3 [-1] [97, 98, 0, 0]).raw_value_buffer.drop
          (i * (3 + 1))).take (3 + 1)).takeWhile (fun b => b != 0)))) ∧
    (∀ o ∈ ([some [97, 98]] : List (Option (List Nat))), o ≠ none) ∧
    (∀ ind2 : List Int,
      NarrowUseTerminatingZero.fill_arrow_array 3
        { TextColumnView.mk 1 3 [-1] [97, 98, 0, 0] with indicators := ind2 } =
        some [some [97, 98]]) :=
  C3_narrow_terminating_zero_fill 3 (TextColumnView.mk 1 3 [-1] [97, 98, 0, 0])
    [some [97, 98]] (by decide) (by decide)

/-- The scratch-buffer loop computes, for any incoming buffer contents, the
per-row decode: the buffer reuse leaks nothing across rows. -/
theorem WideText.fill_go_eq (rows : List (Option (List Nat))) :
    ∀ buf, WideText.fill_go rows buf = rows.mapM
      (fun v => match v with
        | none => some none
        | some u => (decode_utf16 u).map some) := by
  induction rows with
  | nil => intro buf; rw [List.mapM_nil]; rfl
  | cons v rest ih =>
    intro buf
    rw [List.mapM_cons]
    match v with
    | none =>
      simp only [WideText.fill_go, ih]
      rcases (rest.mapM _) with _ | tl <;> rfl
    | some u =>
      simp only [WideText.fill_go, ih]
      rcases decode_utf16 u with _ | cs
      · rfl
      · simp only [List.nil_append, Option.map_some]
        rcases (rest.mapM _) with _ | tl <;> rfl

/-- UTF-16 encode of any sequence of Unicode scalar values decodes back to
the same sequence. -/
theorem decode_encode_utf16 (s : List Nat) (h : ∀ c ∈ s, unicode_scalar c) :
    decode_utf16 (encode_utf16 s) = some s := by
  induction s with
  | nil => rfl
  | cons c s ih =>
    obtain ⟨hlt, hsur⟩ := h c (List.mem_cons_self c s)
    have ihs := ih (fun x hx => h x (List.mem_cons_of_mem c hx))
    unfold encode_utf16
    simp only [List.map_cons, List.join_cons]
    rw [show ((s.map encode_utf16_char).flatten) = encode_utf16 s from rfl]
    by_cases hb : c < 0x10000
    · rw [show encode_utf16_char c = [c] from by
        unfold encode_utf16_char; rw [if_pos hb]]
      simp only [List.cons_append, List.nil_append]
      unfold decode_utf16
      rw [if_pos (by omega)]
      rw [ihs]
      rfl
    · rw [show encode_utf16_char c =
          [0xD800 + (c - 0x10000) / 0x400, 0xDC00 + (c - 0x10000) % 0x400] from by
        unfold encode_utf16_char; rw [if_neg hb]]
      simp only [List.cons_append, List.nil_append]
      unfold decode_utf16
      rw [if_neg (by omega)]
      rw [if_pos (by omega)]
      dsimp only
      rw [if_pos (by constructor <;> omega)]
      rw [ihs]
      have harith : 0x10000 + (0xD800 + (c - 0x10000) / 0x400 - 0xD800) * 0x400 +
          (0xDC00 + (c - 0x10000) % 0x400 - 0xDC00) = c := by omega
      rw [harith]
      rfl

/-- C6: the wide text fill maps absent rows to null; each present row's
UTF-16 code units are decoded to code points, so any sequence of Unicode
scalar values (including non-BMP characters) round-trips unchanged through
UTF-16 encode / decode; and the row loop's scratch buffer is reused safely:
the fill result is the same for every incoming scratch-buffer content. -/
theorem C6_wide_text_fill
    (rows out : List (Option (List Nat)))
    (h : WideText.fill_arrow_array rows = some out) :
    out.length = rows.length ∧
    (∀ i, rows.get? i = some none → out.get? i = some none) ∧
    (∀ i u, rows.get? i = some (some u) →
      ∃ cs, decode_utf16 u = some cs ∧ out.get? i = some (some cs)) ∧
    (∀ buf, WideText.fill_go rows buf = some out) ∧
    (∀ s : List Nat, (∀ c ∈ s, unicode_scalar c) →
      decode_utf16 (encode_utf16 s) = some s) := by
  unfold WideText.fill_arrow_array at h
  rw [WideText.fill_go_eq] at h
  obtain ⟨hl, hg⟩ := mapM_option_spec _ rows out h
  refine ⟨hl, ?_, ?_, ?_, fun s hs => decode_encode_utf16 s hs⟩
  · intro i hrow
    obtain ⟨b, hb, hfb⟩ := hg i none hrow
    cases hfb
    exact hb
  · intro i u hrow
    obtain ⟨b, hb, hfb⟩ := hg i (some u) hrow
    dsimp only at hfb
    rcases hd : decode_utf16 u with _ | cs <;> rw [hd] at hfb
    · cases hfb
    · rw [show Option.map some (some cs) = some (some cs) from rfl] at hfb
      cases hfb
      exact ⟨cs, rfl, hb⟩
  · intro buf
    rw [WideText.fill_go_eq]
    exact h

/-- Witness for C6: a null row plus a row holding the UTF-16 surrogate pair
of the non-BMP code point U+1F600. -/
theorem C6_wide_text_fill_witness :
    ([none, some [0x1F600]] : List (Option (List Nat))).length =
      ([none, some [0xD83D, 0xDE00]] : List (Option (List Nat))).length ∧
    (∀ i, ([none, some [0xD83D, 0xDE00]] : List (Option (List Nat))).get? i =
        some none → [none, some [0x1F600]].get? i = some none) ∧
    (∀ i u, ([none, some [0xD83D, 0xDE00]] : List (Option (List Nat))).get? i =
        some (some u) →
      ∃ cs, decode_utf16 u = some cs ∧
        ([none, some [0x1F600]] : List (Option (List Nat))).get? i =
          some (some cs)) ∧
    (∀ buf, WideText.fill_go [none, some [0xD83D, 0xDE00]] buf =
      some [none, some [0x1F600]]) ∧
    (∀ s : List Nat, (∀ c ∈ s, unicode_scalar c) →
      decode_utf16 (encode_utf16 s) = some s) :=
  C6_wide_text_fill [none, some [0xD83D, 0xDE00]] [none, some [0x1F600]]
    (by decide)

theorem reader_next_snd {β γ : Type} (convert : β → Except Nat γ)
    (stream : List (FetchResult β)) :
    (reader_next convert stream).2 = stream.tail := by
  cases stream with
  | nil => rfl
  | cons x rest => cases x <;> rfl

theorem reader_iterate_get {β γ : Type} (convert : β → Except Nat γ) :
    ∀ (n i : Nat) (stream : List (FetchResult β)), i < n →
      (reader_iterate convert n stream).get? i =
        some ((reader_next convert (stream.drop i)).1) := by
  intro n
  induction n with
  | zero => intro i stream hi; omega
  | succ n ih =>
    intro i stream hi
    cases i with
    | zero => rfl
    | succ j =>
      show (reader_iterate convert n (reader_next convert stream).2).get? j = _
      rw [ih j (reader_next convert stream).2 (by omega), reader_next_snd]
      rw [show stream.tail.drop j = stream.drop (j + 1) by
        cases stream <;> simp]

/-- C4 counterexample: with the fetch outcome stream `[Err 0, Ok(Some 5)]`,
the call after the error still fetches and yields the batch: the iterator is
not terminated by an error result. -/
theorem C4_counterexample_not_fused :
    reader_iterate (fun b : Nat => (Except.ok b : Except Nat Nat)) 2
        [FetchResult.err 0, FetchResult.ok_batch 5] =
      [some (Except.error (ArrowErr.externalOdbc 0)), some (Except.ok 5)] ∧
    (reader_iterate (fun b : Nat => (Except.ok b : Except Nat Nat)) 2
        [FetchResult.err 0, FetchResult.ok_batch 5]).get? 1 =
      some (some (Except.ok 5)) := by
  exact ⟨rfl, rfl⟩

/-- C4 (amended): if the k-th fetch fails after k successful batches, the
k-th iteration item is exactly that error and every earlier item is the
corresponding converted batch; but the iterator is not fused: a further call
after an error invokes fetch again and yields whatever the source produces
next. -/
theorem C4_error_surfaced_at_position
    {β γ : Type} (convert : β → Except Nat γ)
    (stream : List (FetchResult β)) (k : Nat) (e : Nat)
    (hpre : ∀ i, i < k → ∃ b, stream.get? i = some (FetchResult.ok_batch b))
    (he : stream.get? k = some (FetchResult.err e)) :
    (reader_iterate convert (k + 1) stream).get? k =
      some (some (Except.error (ArrowErr.externalOdbc e))) ∧
    (∀ i, i < k → ∃ b, stream.get? i = some (FetchResult.ok_batch b) ∧
      (reader_iterate convert (k + 1) stream).get? i =
        some (some ((convert b).mapError ArrowErr.externalMapping))) ∧
    (∀ (rest : List (FetchResult β)) (b : β),
      reader_iterate convert 2 (FetchResult.err e :: FetchResult.ok_batch b :: rest) =
        [some (Except.error (ArrowErr.externalOdbc e)),
         some ((convert b).mapError ArrowErr.externalMapping)]) := by
  have hdrop : ∀ i, i < k + 1 → ∀ x, stream.get? i = some x →
      stream.drop i = x :: stream.drop (i + 1) := by
    intro i _ x hx
    have hlt : i < stream.length := List.get?_eq_some.mp hx |>.1
    rw [List.drop_eq_getElem_cons hlt]
    have := List.get?_eq_get hlt
    rw [this] at hx
    cases hx
    simp
  refine ⟨?_, ?_, ?_⟩
  · rw [reader_iterate_get convert (k + 1) k stream (by omega)]
    rw [hdrop k (by omega) _ he]
    rfl
  · intro i hi
    obtain ⟨b, hb⟩ := hpre i hi
    refine ⟨b, hb, ?_⟩
    rw [reader_iterate_get convert (k + 1) i stream (by omega)]
    rw [hdrop i (by omega) _ hb]
    rfl
  · intro rest b
    rfl

/-- Witness for the amended C4 on the concrete stream `[Ok(Some 7), Err 3]`. -/
theorem C4_error_surfaced_at_position_witness :
    (reader_iterate (fun b : Nat => (Except.ok b : Except Nat Nat)) (1 + 1)
        [FetchResult.ok_batch 7, FetchResult.err 3]).get? 1 =
      some (some (Except.error (ArrowErr.externalOdbc 3))) ∧
    (∀ i, i < 1 → ∃ b,
      ([FetchResult.ok_batch 7, FetchResult.err 3] :
          List (FetchResult Nat)).get? i = some (FetchResult.ok_batch b) ∧
      (reader_iterate (fun b : Nat => (Except.ok b : Except Nat Nat)) (1 + 1)
          [FetchResult.ok_batch 7, FetchResult.err 3]).get? i =
        some (some (((fun b : Nat => (Except.ok b : Except Nat Nat)) b).mapError
          ArrowErr.externalMapping))) ∧
    (∀ (rest : List (FetchResult Nat)) (b : Nat),
      reader_iterate (fun b : Nat => (Except.ok b : Except Nat Nat)) 2
          (FetchResult.err 3 :: FetchResult.ok_batch b :: rest) =
        [some (Except.error (ArrowErr.externalOdbc 3)),
         some (((fun b : Nat => (Except.ok b : Except Nat Nat)) b).mapError
           ArrowErr.externalMapping)]) :=
  C4_error_surfaced_at_position (fun b : Nat => (Except.ok b : Except Nat Nat))
    [FetchResult.ok_batch 7, FetchResult.err 3] 1 3
    (fun i hi => by
      interval_cases i
      exact ⟨7, rfl⟩)
    rfl

/-- Success of an `Except`-monad `mapM` preserves length. -/
theorem mapM_except_length {ε α β : Type} (f : α → Except ε β) :
    ∀ (l : List α) (out : List β), l.mapM f = Except.ok out →
      out.length = l.length := by
  intro l
  induction l with
  | nil =>
    intro out h
    rw [List.mapM_nil] at h
    cases h
    rfl
  | cons a l ih =>
    intro out h
    rw [List.mapM_cons] at h
    rcases hf : f a with e | b <;> rw [hf] at h
    · cases h
    · rcases hm : l.mapM f with e | bs <;> rw [hm] at h <;>
        dsimp only [bind, Except.bind, pure, Except.pure] at h
      · cases h
      · cases h
        simp [ih bs hm]

theorem TextColumnView.iter_length (v : TextColumnView) :
    v.iter.length = v.num_rows := by
  simp [TextColumnView.iter]

/-- Every successful strategy fill produces exactly one output value per
valid row of its slice. -/
theorem ColumnStrategy.fill_arrow_array_length
    (value_map : Conversion → Int → Int)
    (decimal_parse : List Nat → Option Int)
    (strat : ColumnStrategy) (slice : AnySlice)
    (out : List (Option ArrowCell))
    (h : ColumnStrategy.fill_arrow_array value_map decimal_parse strat slice =
      some out) :
    out.length = slice.num_rows := by
  cases strat <;> cases slice <;>
    first
    | (cases h <;> simp [AnySlice.num_rows])
    | (simp only [ColumnStrategy.fill_arrow_array] at h
       split at h <;> cases h <;> simp [AnySlice.num_rows])
    | skip
  case DecimalStrat.texts _ _ _ view =>
    have := (mapM_option_spec _ _ out h).1
    rw [this, TextColumnView.iter_length]
    rfl
  case WideTextStrat.wtexts nullable len vals =>
    replace h : Option.map (fun o => List.map (fun v => Option.map ArrowCell.s v) o)
        (WideText.fill_go vals []) = some out := h
    rcases hf : WideText.fill_go vals [] with _ | inner <;> rw [hf] at h
    · cases h
    · cases h
      rw [WideText.fill_go_eq] at hf
      have := (mapM_option_spec _ _ inner hf).1
      simp [this, AnySlice.num_rows]

/-- C7: one strategy exists per schema field, one output column is produced
per strategy, and every successfully converted column has exactly the raw
batch's valid-row count as its length. -/
theorem C7_output_batch_shape
    (utf16_len : OdbcDataType → Option Nat) (column_size : OdbcDataType → Nat)
    (fields : List ArrowField)
    (lazy_sql_type : Nat → Except RsError OdbcDataType)
    (lazy_display_size : Nat → Except Nat Int)
    (value_map : Conversion → Int → Int)
    (decimal_parse : List Nat → Option Int)
    (strategies : List ColumnStrategy) (batch : ColumnarRowSet)
    (cols : List (List (Option ArrowCell)))
    (hstrat : with_arrow_schema_strategies utf16_len column_size fields
      lazy_sql_type lazy_display_size = Except.ok strategies)
    (hrows : ∀ c ∈ batch.columns, AnySlice.num_rows c = batch.num_rows)
    (hconv : odbc_batch_to_arrow_columns value_map decimal_parse strategies
      batch = some cols) :
    strategies.length = fields.length ∧
    cols.length = fields.length ∧
    ∀ col ∈ cols, col.length = batch.num_rows := by
  have h1 : strategies.length = fields.length := by
    have := mapM_except_length _ _ _ hstrat
    simpa using this
  obtain ⟨hl, hg⟩ := mapM_option_spec _ _ cols hconv
  have h2 : cols.length = fields.length := by
    rw [hl, List.enum_length, h1]
  refine ⟨h1, h2, ?_⟩
  intro col hcol
  obtain ⟨⟨i, hilt⟩, rfl⟩ := List.mem_iff_get.mp hcol
  have hienum : i < strategies.enum.length := by
    rw [List.enum_length]
    rw [hl, List.enum_length] at hilt
    exact hilt
  have henum : strategies.enum.get? i =
      some (i, strategies.get ⟨i, by rw [hl, List.enum_length] at hilt; exact hilt⟩) := by
    rw [List.enum_get?]
    rw [List.get?_eq_get]
    rfl
  obtain ⟨b, hb, hfb⟩ := hg i _ henum
  rcases hslice : batch.columns.get? i with _ | slice <;>
    simp only [hslice] at hfb
  · cases hfb
  · have hcolget := List.get?_eq_get hilt
    rw [hb] at hcolget
    cases hcolget
    have hlen := ColumnStrategy.fill_arrow_array_length value_map decimal_parse
      _ _ _ hfb
    rw [hlen, hrows slice (List.get?_mem hslice)]

/-- Witness for C7: one Int32 field, a two-row batch. -/
theorem C7_output_batch_shape_witness :
    ([ColumnStrategy.NoConversion ArrowPrimitiveType.Int32Type false] :
        List ColumnStrategy).length =
      ([{ name := "a", data_type := ArrowDataType.Int32, nullable := false }] :
        List ArrowField).length ∧
    ([[some (ArrowCell.i 3), some (ArrowCell.i 4)]] :
        List (List (Option ArrowCell))).length =
      ([{ name := "a", data_type := ArrowDataType.Int32, nullable := false }] :
        List ArrowField).length ∧
    ∀ col ∈ ([[some (ArrowCell.i 3), some (ArrowCell.i 4)]] :
        List (List (Option ArrowCell))),
      col.length = (ColumnarRowSet.mk 2 [AnySlice.ints [3, 4]]).num_rows :=
  C7_output_batch_shape (fun _ => none) (fun _ => 0)
    [{ name := "a", data_type := ArrowDataType.Int32, nullable := false }]
    (fun _ => Except.ok OdbcDataType.Integer) (fun _ => Except.ok 1)
    (fun _ v => v) (fun _ => none)
    [ColumnStrategy.NoConversion ArrowPrimitiveType.Int32Type false]
    (ColumnarRowSet.mk 2 [AnySlice.ints [3, 4]])
    [[some (ArrowCell.i 3), some (ArrowCell.i 4)]]
    rfl (by decide) rfl

/-- C9: `into_concurrent` depends only on the unbound cursor — any two
readers over the same cursor, whatever their schema, buffer capacity (batch
size) or allocation options, yield the same concurrent reader — and the
result uses the hardcoded batch size 100, a schema re-inferred from the
cursor, and default options. -/
theorem C9_into_concurrent_discards_configuration
    (r1 r2 : OdbcReaderModel) (cr : ConcurrentOdbcReaderModel)
    (hcur : r1.batch_stream.cursor = r2.batch_stream.cursor)
    (h : OdbcReader.into_concurrent r1 = some cr) :
    OdbcReader.into_concurrent r2 = some cr ∧
    cr.max_batch_size = 100 ∧
    cr.cursor = OdbcReader.into_cursor r1 ∧
    arrow_schema_from r1.batch_stream.cursor.cols = some cr.schema ∧
    cr.options = BufferAllocationOptions.default := by
  unfold OdbcReader.into_concurrent OdbcReader.into_cursor at h ⊢
  rw [← hcur]
  unfold ConcurrentOdbcReader.new at h ⊢
  dsimp only at h ⊢
  rcases hs : arrow_schema_from r1.batch_stream.cursor.cols with _ | schema <;>
    rw [hs] at h
  · cases h
  · cases h
    exact ⟨rfl, rfl, rfl, rfl, rfl⟩

/-- Witness for C9: two readers over the same one-column cursor but with
different schemas, buffer capacities and options yield the same concurrent
reader, with batch size 100 and a freshly inferred schema. -/
theorem C9_into_concurrent_discards_configuration_witness :
    OdbcReader.into_concurrent c9_reader2 = some c9_concurrent ∧
    c9_concurrent.max_batch_size = 100 ∧
    c9_concurrent.cursor = OdbcReader.into_cursor c9_reader1 ∧
    arrow_schema_from c9_reader1.batch_stream.cursor.cols =
      some c9_concurrent.schema ∧
    c9_concurrent.options = BufferAllocationOptions.default :=
  C9_into_concurrent_discards_configuration c9_reader1 c9_reader2 c9_concurrent
    rfl (by decide)
